import Mathlib

/-!
Shallow embedding of the Risk-Return Analyser pipeline (src/main.py).

The Python program computes, per ticker column of a price DataFrame:
daily returns (pct_change + dropna), an annualized return
`(1 + mean) ** 252 - 1`, an annualized volatility `std(ddof=1) * sqrt(252)`,
a Sharpe ratio `(annual_return - risk_free_rate) / annual_volatility`,
a cumulative-growth series `(prices / prices.iloc[0]) * 100`, and a table
report whose best ticker is `metrics["Sharpe Ratio"].idxmax()`.

Numeric values are modelled as exact real numbers extended with the IEEE
special values NaN and plus/minus infinity (`FloatVal`): the float
operations of numpy/pandas never raise on division by zero, they produce
these special values, and the claims under study are about exactly that
behaviour, not about rounding error.  The zeros arising as denominators in
the program are produced by exact cancellation (a sample standard
deviation of identical values), hence are IEEE positive zeros; the model
therefore uses an unsigned zero with the positive-zero division rule.
-/

/-- A double value as computed by numpy/pandas: an exact real, or one of
the IEEE special values. -/
inductive FloatVal where
  | fin : ℝ → FloatVal
  | posInf : FloatVal
  | negInf : FloatVal
  | nan : FloatVal

/-- True exactly on the NaN value. -/
def FloatVal.isNan : FloatVal → Bool
  | .nan => true
  | _ => false

/-- IEEE negation. -/
noncomputable def fneg : FloatVal → FloatVal
  | .fin x => .fin (-x)
  | .posInf => .negInf
  | .negInf => .posInf
  | .nan => .nan

/-- IEEE addition on exact extended reals: NaN propagates, opposite
infinities give NaN. -/
noncomputable def fadd : FloatVal → FloatVal → FloatVal
  | .nan, _ => .nan
  | _, .nan => .nan
  | .posInf, .negInf => .nan
  | .negInf, .posInf => .nan
  | .posInf, _ => .posInf
  | _, .posInf => .posInf
  | .negInf, _ => .negInf
  | _, .negInf => .negInf
  | .fin x, .fin y => .fin (x + y)

/-- IEEE subtraction, `a - b = a + (-b)`. -/
noncomputable def fsub (a b : FloatVal) : FloatVal := fadd a (fneg b)

/-- IEEE multiplication: NaN propagates, infinity times zero is NaN,
otherwise infinities follow the sign rules. -/
noncomputable def fmul : FloatVal → FloatVal → FloatVal
  | .nan, _ => .nan
  | _, .nan => .nan
  | .posInf, .posInf => .posInf
  | .posInf, .negInf => .negInf
  | .negInf, .posInf => .negInf
  | .negInf, .negInf => .posInf
  | .posInf, .fin y => if y = 0 then .nan else if 0 < y then .posInf else .negInf
  | .negInf, .fin y => if y = 0 then .nan else if 0 < y then .negInf else .posInf
  | .fin x, .posInf => if x = 0 then .nan else if 0 < x then .posInf else .negInf
  | .fin x, .negInf => if x = 0 then .nan else if 0 < x then .negInf else .posInf
  | .fin x, .fin y => .fin (x * y)

/-- IEEE division with an unsigned (positive) zero: a nonzero finite value
divided by zero is a signed infinity, zero by zero is NaN; this matches
numpy float division, which warns but never raises. -/
noncomputable def fdiv : FloatVal → FloatVal → FloatVal
  | .nan, _ => .nan
  | _, .nan => .nan
  | .posInf, .posInf => .nan
  | .posInf, .negInf => .nan
  | .negInf, .posInf => .nan
  | .negInf, .negInf => .nan
  | .posInf, .fin y => if 0 ≤ y then .posInf else .negInf
  | .negInf, .fin y => if 0 ≤ y then .negInf else .posInf
  | .fin _, .posInf => .fin 0
  | .fin _, .negInf => .fin 0
  | .fin x, .fin y =>
      if y = 0 then (if x = 0 then .nan else if 0 < x then .posInf else .negInf)
      else .fin (x / y)

/-- Python `**` with a natural exponent: anything to the power zero is one
(as in CPython, even for NaN); otherwise NaN propagates and infinities
follow sign and parity. -/
noncomputable def fpow (v : FloatVal) (n : ℕ) : FloatVal :=
  if n = 0 then .fin 1
  else
    match v with
    | .fin x => .fin (x ^ n)
    | .posInf => .posInf
    | .negInf => if n % 2 = 0 then .posInf else .negInf
    | .nan => .nan

/-- Order embedding of the non-NaN float values into the extended reals,
used to model float comparisons; NaN is never compared (pandas idxmax
skips it before comparing) and is mapped arbitrarily to bottom. -/
noncomputable def toEReal : FloatVal → EReal
  | .fin x => (x : EReal)
  | .posInf => ⊤
  | .negInf => ⊥
  | .nan => ⊥

/-- A pandas DataFrame of adjusted closing prices: a date index and one
aligned column of prices per ticker, in column order.  Well-formedness
(every column has the same length as the index) is a hypothesis of the
theorems that need it. -/
structure DataFrame where
  index : List ℕ
  cols : List (String × List ℝ)

/-- Source line 51, `prices.pct_change().dropna()`, per column: the
relative change over each consecutive pair of prices.  On an aligned
complete table `dropna` removes exactly the first row, so per column the
result is the list of consecutive-pair changes, one shorter than the
price series. -/
noncomputable def daily_returns (ps : List ℝ) : List ℝ :=
  List.zipWith (fun prev cur => (cur - prev) / prev) ps ps.tail

/-- pandas `Series.mean`: NaN on an empty series, otherwise the exact
arithmetic mean. -/
noncomputable def seriesMean (xs : List ℝ) : FloatVal :=
  match xs with
  | [] => .nan
  | _ => .fin (xs.sum / xs.length)

/-- pandas `Series.std` with its default `ddof=1`: NaN when fewer than two
observations (the `n-1` denominator would be zero or the series empty),
otherwise the square root of the sum of squared deviations from the mean
divided by `n - 1`. -/
noncomputable def sampleStd (xs : List ℝ) : FloatVal :=
  match xs with
  | [] => .nan
  | [_] => .nan
  | _ => .fin (Real.sqrt
      ((xs.map (fun x => (x - xs.sum / xs.length) ^ 2)).sum / ((xs.length : ℝ) - 1)))

/-- Source line 54: the standard number of trading days per year. -/
def trading_days : ℕ := 252

/-- Source line 37: the default annual risk-free rate, `0.02`. -/
noncomputable def default_risk_free_rate : ℝ := 1 / 50

/-- Source line 57: `(1 + daily_returns.mean()) ** trading_days - 1`. -/
noncomputable def annualReturnOf (rets : List ℝ) : FloatVal :=
  fsub (fpow (fadd (.fin 1) (seriesMean rets)) trading_days) (.fin 1)

/-- Source line 60: `daily_returns.std() * np.sqrt(trading_days)`. -/
noncomputable def annualVolatilityOf (rets : List ℝ) : FloatVal :=
  fmul (sampleStd rets) (.fin (Real.sqrt 252))

/-- Source line 63: `(annual_return - risk_free_rate) / annual_volatility`. -/
noncomputable def sharpeOf (rets : List ℝ) (risk_free_rate : ℝ) : FloatVal :=
  fdiv (fsub (annualReturnOf rets) (.fin risk_free_rate)) (annualVolatilityOf rets)

/-- One row of the metrics DataFrame built at source lines 66-70. -/
structure MetricsRecord where
  annualReturn : FloatVal
  annualVolatility : FloatVal
  sharpe : FloatVal

/-- Source lines 37-74, `calculate_metrics`: per ticker column, the three
annualized metrics, in the column order of the input table.  The function
is pure: it builds a new record and never writes into `prices`. -/
noncomputable def calculate_metrics (prices : DataFrame) (risk_free_rate : ℝ) :
    List (String × MetricsRecord) :=
  prices.cols.map (fun c =>
    (c.1, { annualReturn := annualReturnOf (daily_returns c.2)
            annualVolatility := annualVolatilityOf (daily_returns c.2)
            sharpe := sharpeOf (daily_returns c.2) risk_free_rate }))

/-- Source line 90, per column: `(prices / prices.iloc[0]) * 100`.  pandas
divides each column by its own first row value, so a column maps each
price to `price / first * 100`. -/
noncomputable def cumulative_returns (ps : List ℝ) : List ℝ :=
  match ps with
  | [] => []
  | p0 :: _ => ps.map (fun p => p / p0 * 100)

/-- Modelled from the spec: the Cumulative Growth Series as the spec
defines it for claim C4, the running product of `1 + return` over the
Daily Return Series, normalized so the first price observation maps to
base 100; an empty price series has no first observation and yields the
empty series. -/
noncomputable def specCumulativeGrowth (ps : List ℝ) : List ℝ :=
  match ps with
  | [] => []
  | _ => List.scanl (fun acc r => acc * (1 + r)) 100 (daily_returns ps)

/-- The observable effects of `create_visualizations` (source lines
76-111): whether the output directory was created, which cumulative
series were plotted, whether the chart image file was written, and the
exception text when one propagates. -/
structure RenderOutcome where
  madeOutputDir : Bool
  plotted : List (String × List ℝ)
  wroteFile : Bool
  error : Option String

/-- Source lines 76-111, `create_visualizations`: `os.makedirs("output",
exist_ok=True)` runs first unconditionally; then `prices.iloc[0]` raises
IndexError when the table has no rows, aborting before any file is
written; otherwise every column (possibly none) is normalized and
plotted and `plt.savefig` writes the chart image, even when the table has
zero ticker columns.  No `RenderError` exists anywhere in the program. -/
noncomputable def create_visualizations (prices : DataFrame) : RenderOutcome :=
  match prices.index with
  | [] => { madeOutputDir := true, plotted := [], wroteFile := false
            error := some "single positional indexer is out-of-bounds" }
  | _ => { madeOutputDir := true
           plotted := prices.cols.map (fun c => (c.1, cumulative_returns c.2))
           wroteFile := true
           error := none }

/-- Left-pads a fractional part of up to three digits with zeros. -/
def pad3 (k : ℕ) : String :=
  if k < 10 then "00" ++ toString k
  else if k < 100 then "0" ++ toString k
  else toString k

/-- Fixed-point rendering of a finite double to three decimals, as Python
`f"{x:.3f}"` does (the model rounds halves up where CPython rounds them
to even; no value in this development sits on a half-thousandth). -/
noncomputable def decimal3 (x : ℝ) : String :=
  let n : ℤ := round (x * 1000)
  (if n < 0 then "-" else "") ++ toString (n.natAbs / 1000) ++ "." ++ pad3 (n.natAbs % 1000)

/-- Source line 127, `lambda x: f"{x:.3f}"`: Python renders the special
values as "nan", "inf" and "-inf"; nothing in the program ever prints
"N/A". -/
noncomputable def format3f : FloatVal → String
  | .nan => "nan"
  | .posInf => "inf"
  | .negInf => "-inf"
  | .fin x => decimal3 x

/-- Fold of pandas `Series.idxmax`: keeps the current best label-value
pair, replacing it only on a strictly greater non-NaN value, so the first
occurrence of the maximum wins. -/
noncomputable def idxmaxAux (best : String × FloatVal) :
    List (String × FloatVal) → String × FloatVal
  | [] => best
  | p :: rest =>
      if p.2.isNan then idxmaxAux best rest
      else if toEReal best.2 < toEReal p.2 then idxmaxAux p rest
      else idxmaxAux best rest

/-- pandas `Series.idxmax` with its default `skipna=True`: the label of
the first occurrence of the maximum among non-NaN entries; when no entry
is non-NaN pandas raises, modelled as `none`. -/
noncomputable def idxmax : List (String × FloatVal) → Option String
  | [] => none
  | p :: rest => if p.2.isNan then idxmax rest else some (idxmaxAux p rest).1

/-- The `metrics["Sharpe Ratio"]` column: ticker labels paired with their
Sharpe values, in table order. -/
noncomputable def sharpeColumn (metrics : List (String × MetricsRecord)) :
    List (String × FloatVal) :=
  metrics.map (fun p => (p.1, p.2.sharpe))

/-- Source line 132, `metrics["Sharpe Ratio"].idxmax()`: the best ticker
reported by `display_results`. -/
noncomputable def display_results_best (metrics : List (String × MetricsRecord)) :
    Option String :=
  idxmax (sharpeColumn metrics)

/-- The observable outcome of one run of the program: the error message
printed by the catch-all handler, if any, and the process exit code. -/
structure RunOutcome where
  errorMessage : Option String
  exitCode : ℕ

/-- Source lines 140-170, `main` and the `__main__` guard: the pipeline
runs inside one `try`; any exception is caught, a message is printed, and
`main` then returns normally — the script never calls `sys.exit`, so the
interpreter exits with status 0 on every path, failures included.  The
fetch stage is external network input and is passed in as its outcome;
the rendering stage fails exactly when `create_visualizations` raises,
and `display_results` fails exactly when `idxmax` finds no non-NaN
Sharpe value. -/
noncomputable def main (fetchResult : Except String DataFrame) : RunOutcome :=
  match fetchResult with
  | .error e => { errorMessage := some ("Error during analysis: " ++ e), exitCode := 0 }
  | .ok prices =>
      let metrics := calculate_metrics prices default_risk_free_rate
      match (create_visualizations prices).error with
      | some e => { errorMessage := some ("Error during analysis: " ++ e), exitCode := 0 }
      | none =>
          match display_results_best metrics with
          | none => { errorMessage :=
                        some "Error during analysis: attempt to get argmax of an empty sequence"
                      exitCode := 0 }
          | some _ => { errorMessage := none, exitCode := 0 }

/-! ### Helper lemmas -/

lemma daily_returns_length (ps : List ℝ) : (daily_returns ps).length = ps.length - 1 := by
  simp [daily_returns]

lemma daily_returns_of_short (ps : List ℝ) (h : ps.length < 2) : daily_returns ps = [] := by
  cases ps with
  | nil => rfl
  | cons a t =>
      cases t with
      | nil => rfl
      | cons b t2 => simp at h; omega

lemma seriesMean_of_ne_nil (xs : List ℝ) (h : xs ≠ []) :
    seriesMean xs = .fin (xs.sum / xs.length) := by
  cases xs with
  | nil => exact absurd rfl h
  | cons a t => rfl

lemma sampleStd_of_two_le (xs : List ℝ) (h : 2 ≤ xs.length) :
    sampleStd xs = .fin (Real.sqrt
      ((xs.map (fun x => (x - xs.sum / xs.length) ^ 2)).sum / ((xs.length : ℝ) - 1))) := by
  cases xs with
  | nil => simp at h
  | cons a t =>
      cases t with
      | nil => simp at h
      | cons b t2 => rfl

lemma annualReturnOf_of_ne_nil (rets : List ℝ) (h : rets ≠ []) :
    annualReturnOf rets = .fin ((1 + rets.sum / rets.length) ^ trading_days - 1) := by
  rw [annualReturnOf, seriesMean_of_ne_nil rets h]
  simp [fadd, fpow, trading_days, fsub, fneg, sub_eq_add_neg]

lemma annualVolatilityOf_of_two_le (rets : List ℝ) (h : 2 ≤ rets.length) :
    annualVolatilityOf rets = .fin (Real.sqrt
      ((rets.map (fun x => (x - rets.sum / rets.length) ^ 2)).sum / ((rets.length : ℝ) - 1))
      * Real.sqrt 252) := by
  rw [annualVolatilityOf, sampleStd_of_two_le rets h]
  simp [fmul]

lemma annualReturnOf_nil : annualReturnOf [] = .nan := by
  simp [annualReturnOf, seriesMean, fadd, fpow, trading_days, fsub, fneg]

lemma annualVolatilityOf_nil : annualVolatilityOf [] = .nan := by
  simp [annualVolatilityOf, sampleStd, fmul]

lemma sharpeOf_nil (r : ℝ) : sharpeOf [] r = .nan := by
  simp [sharpeOf, annualReturnOf_nil, annualVolatilityOf_nil, fsub, fadd, fneg, fdiv]

/-! ### Claim theorems -/

/-- C10: `calculate_metrics` returns exactly one metrics record per ticker
column of the input table, no ticker added or dropped, in the same order
as the input columns; being a pure function of the embedding, it cannot
modify the input table (and the source indeed never assigns into
`prices`). -/
theorem calculate_metrics_preserves_tickers (df : DataFrame) (r : ℝ) :
    (calculate_metrics df r).map Prod.fst = df.cols.map Prod.fst ∧
    (calculate_metrics df r).length = df.cols.length := by
  constructor
  · simp [calculate_metrics]
  · simp [calculate_metrics]

/-- C3: the orchestrator catches every pipeline failure and prints a
user-facing message, but `main` returns normally and the script never
calls `sys.exit`, so the process exit code is 0 on every path — including
failing runs, contradicting the claimed non-zero exit on failure. -/
theorem main_exit_code_always_zero (fetchResult : Except String DataFrame) :
    (main fetchResult).exitCode = 0 ∧
    (∀ e, fetchResult = .error e →
      (main fetchResult).errorMessage = some ("Error during analysis: " ++ e)) := by
  cases fetchResult with
  | error e => exact ⟨rfl, by intro e' he; cases he; rfl⟩
  | ok df =>
      refine ⟨?_, by intro e' he; cases he⟩
      simp only [main]
      cases (create_visualizations df).error with
      | some e => rfl
      | none =>
          cases display_results_best (calculate_metrics df default_risk_free_rate) with
          | none => rfl
          | some t => rfl

/-- C3 witness: a concrete failing fetch still exits with code 0 after
printing the error message. -/
theorem main_exit_code_always_zero_witness :
    (main (.error "no internet connection")).exitCode = 0 ∧
    (∀ e, (Except.error e : Except String DataFrame) = .error "no internet connection" →
      (main (.error "no internet connection")).errorMessage =
        some ("Error during analysis: " ++ "no internet connection")) := by
  have h := main_exit_code_always_zero (.error "no internet connection")
  exact ⟨h.1, fun e _ => h.2 "no internet connection" rfl⟩

/-- C8 counterexample: a table with trading dates but an empty collection
of ticker series makes the renderer succeed and write the chart file with
no error at all — no `RenderError` exists in the program and nothing is
raised on an empty series collection. -/
theorem render_empty_series_counterexample :
    (create_visualizations { index := [0, 1], cols := [] }).error = none ∧
    (create_visualizations { index := [0, 1], cols := [] }).wroteFile = true := by
  constructor <;> rfl

/-- C8 amended: `create_visualizations` creates the output directory
unconditionally before doing anything else; it never raises on an empty
ticker-series collection (the program defines no `RenderError`) and still
writes the chart image whenever the table has at least one date row; it
fails — with an IndexError from the first-row lookup, after the directory
was already created and before any file is written — exactly when the
date index is empty. -/
theorem create_visualizations_effects (df : DataFrame) :
    (create_visualizations df).madeOutputDir = true ∧
    ((create_visualizations df).error = none ↔ df.index ≠ []) ∧
    ((create_visualizations df).wroteFile = true ↔ df.index ≠ []) := by
  obtain ⟨idx, cols⟩ := df
  cases idx with
  | nil => simp [create_visualizations]
  | cons d rest => simp [create_visualizations]

/-- C7: for a ticker price series with at least two dates, the daily
return series has length one less than the price series, and its entry at
position `i` is `(price[i+1] - price[i]) / price[i]` — the return series
starts at the second date, the first date having no return. -/
theorem daily_returns_pairwise (ps : List ℝ) (h2 : 2 ≤ ps.length) :
    (daily_returns ps).length = ps.length - 1 ∧
    ∀ i (hi : i < (daily_returns ps).length) (hi1 : i + 1 < ps.length) (hi0 : i < ps.length),
      (daily_returns ps).get ⟨i, hi⟩ =
        (ps.get ⟨i + 1, hi1⟩ - ps.get ⟨i, hi0⟩) / ps.get ⟨i, hi0⟩ := by
  refine ⟨daily_returns_length ps, ?_⟩
  intro i hi hi1 hi0
  simp [daily_returns, List.get_eq_getElem, List.getElem_zipWith, List.getElem_tail]

/-- C7 witness: the two-date series `[100, 110]` has one return, equal to
`(110 - 100) / 100`. -/
theorem daily_returns_pairwise_witness :
    2 ≤ ([100, 110] : List ℝ).length ∧
    ((daily_returns [100, 110]).length = ([100, 110] : List ℝ).length - 1 ∧
    ∀ i (hi : i < (daily_returns [(100 : ℝ), 110]).length)
      (hi1 : i + 1 < ([100, 110] : List ℝ).length) (hi0 : i < ([100, 110] : List ℝ).length),
      (daily_returns [(100 : ℝ), 110]).get ⟨i, hi⟩ =
        (([(100 : ℝ), 110]).get ⟨i + 1, hi1⟩ - ([(100 : ℝ), 110]).get ⟨i, hi0⟩)
          / ([(100 : ℝ), 110]).get ⟨i, hi0⟩) :=
  ⟨by simp, daily_returns_pairwise [100, 110] (by simp)⟩

/-- C9: a price table with fewer than two rows yields an empty daily
return series for every ticker, and `calculate_metrics` then returns —
without raising — a record per ticker whose annualized return, annualized
volatility and Sharpe ratio are all NaN. -/
theorem calculate_metrics_short_table_all_nan (df : DataFrame) (r : ℝ)
    (hrows : df.index.length < 2)
    (hwf : ∀ c ∈ df.cols, c.2.length = df.index.length) :
    ∀ p ∈ calculate_metrics df r,
      p.2.annualReturn = .nan ∧ p.2.annualVolatility = .nan ∧ p.2.sharpe = .nan := by
  intro p hp
  simp only [calculate_metrics, List.mem_map] at hp
  obtain ⟨c, hc, rfl⟩ := hp
  have hlen : c.2.length < 2 := (hwf c hc) ▸ hrows
  have hret : daily_returns c.2 = [] := daily_returns_of_short c.2 hlen
  refine ⟨?_, ?_, ?_⟩
  · simpa [hret] using annualReturnOf_nil
  · simpa [hret] using annualVolatilityOf_nil
  · simpa [hret] using sharpeOf_nil r

/-- C9 witness: a concrete one-row table produces all-NaN metrics. -/
theorem calculate_metrics_short_table_all_nan_witness :
    (DataFrame.mk [0] [("A", [100])]).index.length < 2 ∧
    (∀ c ∈ (DataFrame.mk [0] [("A", [100])]).cols,
        c.2.length = (DataFrame.mk [0] [("A", [100])]).index.length) ∧
    ∀ p ∈ calculate_metrics (DataFrame.mk [0] [("A", [100])]) (1 / 50),
      p.2.annualReturn = .nan ∧ p.2.annualVolatility = .nan ∧ p.2.sharpe = .nan :=
  ⟨by simp, by simp,
    calculate_metrics_short_table_all_nan (DataFrame.mk [0] [("A", [100])]) (1 / 50)
      (by simp) (by simp)⟩

/-- C5: for every ticker column with at least two dates, the annualized
return computed by `calculate_metrics` is the geometric compounding of
the mean daily return, `(1 + mean) ^ trading_days - 1` with
`trading_days = 252`; the formula is the same single policy for every
ticker of the run. -/
theorem annual_return_geometric (df : DataFrame) (r : ℝ) :
    ∀ tp ∈ df.cols, 2 ≤ tp.2.length →
      ∃ rec, (tp.1, rec) ∈ calculate_metrics df r ∧
        rec.annualReturn = .fin
          ((1 + (daily_returns tp.2).sum / (daily_returns tp.2).length) ^ trading_days - 1) ∧
        trading_days = 252 := by
  intro tp htp hlen
  refine ⟨_, List.mem_map_of_mem _ htp, ?_, rfl⟩
  have hlr := daily_returns_length tp.2
  have hne : daily_returns tp.2 ≠ [] := by
    intro hnil
    rw [hnil] at hlr
    simp at hlr
    omega
  exact annualReturnOf_of_ne_nil _ hne

/-- C5 witness: a concrete three-date column realizes the geometric
annualization formula. -/
theorem annual_return_geometric_witness :
    ("A", [(100 : ℝ), 110, 121]) ∈ (DataFrame.mk [0, 1, 2] [("A", [100, 110, 121])]).cols ∧
    2 ≤ ([(100 : ℝ), 110, 121]).length ∧
    ∃ rec, ("A", rec) ∈
        calculate_metrics (DataFrame.mk [0, 1, 2] [("A", [100, 110, 121])]) (1 / 50) ∧
      rec.annualReturn = .fin
        ((1 + (daily_returns [(100 : ℝ), 110, 121]).sum
            / (daily_returns [(100 : ℝ), 110, 121]).length) ^ trading_days - 1) ∧
      trading_days = 252 :=
  ⟨by simp, by simp,
    annual_return_geometric (DataFrame.mk [0, 1, 2] [("A", [100, 110, 121])]) (1 / 50)
      ("A", [100, 110, 121]) (by simp) (by simp)⟩

/-- C6: for every ticker column with at least three dates, the annualized
volatility computed by `calculate_metrics` is the sample standard
deviation of the daily returns — square root of the sum of squared
deviations from the mean divided by `n - 1` — multiplied by the square
root of 252, and it is nonnegative. -/
theorem annual_volatility_sample_std (df : DataFrame) (r : ℝ) :
    ∀ tp ∈ df.cols, 3 ≤ tp.2.length →
      ∃ rec σ, (tp.1, rec) ∈ calculate_metrics df r ∧
        sampleStd (daily_returns tp.2) = .fin σ ∧
        σ = Real.sqrt (((daily_returns tp.2).map
              (fun x => (x - (daily_returns tp.2).sum / (daily_returns tp.2).length) ^ 2)).sum
            / (((daily_returns tp.2).length : ℝ) - 1)) ∧
        rec.annualVolatility = .fin (σ * Real.sqrt 252) ∧
        0 ≤ σ * Real.sqrt 252 := by
  intro tp htp hlen
  have hlr := daily_returns_length tp.2
  have h2 : 2 ≤ (daily_returns tp.2).length := by omega
  refine ⟨_, _, List.mem_map_of_mem _ htp, sampleStd_of_two_le _ h2, rfl, ?_, ?_⟩
  · exact annualVolatilityOf_of_two_le _ h2
  · exact mul_nonneg (Real.sqrt_nonneg _) (Real.sqrt_nonneg _)

/-- C6 witness: a concrete three-date column realizes the sample-standard
deviation formula with a nonnegative annualized volatility. -/
theorem annual_volatility_sample_std_witness :
    ("B", [(100 : ℝ), 110, 121]) ∈ (DataFrame.mk [0, 1, 2] [("B", [100, 110, 121])]).cols ∧
    3 ≤ ([(100 : ℝ), 110, 121]).length ∧
    ∃ rec σ, ("B", rec) ∈
        calculate_metrics (DataFrame.mk [0, 1, 2] [("B", [100, 110, 121])]) (1 / 50) ∧
      sampleStd (daily_returns [(100 : ℝ), 110, 121]) = .fin σ ∧
      σ = Real.sqrt (((daily_returns [(100 : ℝ), 110, 121]).map
            (fun x => (x - (daily_returns [(100 : ℝ), 110, 121]).sum
              / (daily_returns [(100 : ℝ), 110, 121]).length) ^ 2)).sum
          / (((daily_returns [(100 : ℝ), 110, 121]).length : ℝ) - 1)) ∧
      rec.annualVolatility = .fin (σ * Real.sqrt 252) ∧
      0 ≤ σ * Real.sqrt 252 :=
  ⟨by simp, by simp,
    annual_volatility_sample_std (DataFrame.mk [0, 1, 2] [("B", [100, 110, 121])]) (1 / 50)
      ("B", [100, 110, 121]) (by simp) (by simp)⟩

lemma zipWith_change_replicate (c : ℝ) (m : ℕ) :
    List.zipWith (fun prev cur => (cur - prev) / prev)
      (List.replicate (m + 1) c) (List.replicate m c) = List.replicate m (0 : ℝ) := by
  induction m with
  | zero => rfl
  | succ k ih =>
      have h1 : List.replicate (k + 1 + 1) c = c :: List.replicate (k + 1) c :=
        List.replicate_succ c (k + 1)
      have h2 : List.replicate (k + 1) c = c :: List.replicate k c :=
        List.replicate_succ c k
      calc List.zipWith (fun prev cur => (cur - prev) / prev)
            (List.replicate (k + 1 + 1) c) (List.replicate (k + 1) c)
          = ((c - c) / c) :: List.zipWith (fun prev cur => (cur - prev) / prev)
              (List.replicate (k + 1) c) (List.replicate k c) := by
            rw [h1]
            conv_lhs => rw [h2]
            rfl
        _ = (0 : ℝ) :: List.replicate k (0 : ℝ) := by rw [ih]; simp
        _ = List.replicate (k + 1) (0 : ℝ) := (List.replicate_succ 0 k).symm

lemma daily_returns_replicate (c : ℝ) (n : ℕ) :
    daily_returns (List.replicate n c) = List.replicate (n - 1) (0 : ℝ) := by
  cases n with
  | zero => rfl
  | succ m =>
      rw [daily_returns, List.tail_replicate]
      simpa using zipWith_change_replicate c m

lemma seriesMean_replicate_zero (m : ℕ) (h : 1 ≤ m) :
    seriesMean (List.replicate m (0 : ℝ)) = .fin 0 := by
  rw [seriesMean_of_ne_nil _ (by simp; omega)]
  simp

lemma sampleStd_replicate_zero (m : ℕ) (h : 2 ≤ m) :
    sampleStd (List.replicate m (0 : ℝ)) = .fin 0 := by
  rw [sampleStd_of_two_le _ (by simpa using h)]
  simp

/-- C1 amended: for a constant-price ticker the program raises nothing
and the annualized volatility is 0, but the Sharpe ratio is NOT the NaN
sentinel: with the default 2% risk-free rate the excess return `0 - 0.02`
is negative and numpy division by the exact zero volatility yields
negative infinity, which the table renders as "-inf", not "N/A" (the
string "N/A" appears nowhere in the program). -/
theorem sharpe_constant_price (c : ℝ) (n : ℕ) (hc : 0 < c) (hn : 3 ≤ n) :
    annualVolatilityOf (daily_returns (List.replicate n c)) = .fin 0 ∧
    sharpeOf (daily_returns (List.replicate n c)) default_risk_free_rate = .negInf ∧
    format3f (sharpeOf (daily_returns (List.replicate n c)) default_risk_free_rate) = "-inf" ∧
    format3f (sharpeOf (daily_returns (List.replicate n c)) default_risk_free_rate) ≠ "N/A" := by
  have hret := daily_returns_replicate c n
  have hvol : annualVolatilityOf (daily_returns (List.replicate n c)) = .fin 0 := by
    rw [hret, annualVolatilityOf, sampleStd_replicate_zero _ (by omega)]
    simp [fmul]
  have hann : annualReturnOf (daily_returns (List.replicate n c)) = .fin 0 := by
    rw [hret, annualReturnOf, seriesMean_replicate_zero _ (by omega)]
    norm_num [fadd, fpow, trading_days, fsub, fneg]
  have hsh : sharpeOf (daily_returns (List.replicate n c)) default_risk_free_rate = .negInf := by
    rw [sharpeOf, hann, hvol]
    norm_num [fsub, fneg, fadd, fdiv, default_risk_free_rate]
  refine ⟨hvol, hsh, by rw [hsh]; rfl, ?_⟩
  rw [hsh]
  show ("-inf" : String) ≠ "N/A"
  decide

/-- C1 witness: ten constant days at price 100 (three suffice) hit the
negative-infinity Sharpe and the "-inf" rendering. -/
theorem sharpe_constant_price_witness :
    (0 : ℝ) < 100 ∧ 3 ≤ 10 ∧
    (annualVolatilityOf (daily_returns (List.replicate 10 (100 : ℝ))) = .fin 0 ∧
     sharpeOf (daily_returns (List.replicate 10 (100 : ℝ))) default_risk_free_rate = .negInf ∧
     format3f (sharpeOf (daily_returns (List.replicate 10 (100 : ℝ)))
       default_risk_free_rate) = "-inf" ∧
     format3f (sharpeOf (daily_returns (List.replicate 10 (100 : ℝ)))
       default_risk_free_rate) ≠ "N/A") :=
  ⟨by norm_num, by norm_num, sharpe_constant_price 100 10 (by norm_num) (by norm_num)⟩

/-- C1 counterexample: on the concrete table with one ticker at constant
price 100 for three days, `calculate_metrics` produces a Sharpe ratio of
negative infinity — not the claimed NaN/None sentinel — and the table
formatter renders it "-inf", not "N/A". -/
theorem sharpe_constant_price_counterexample :
    calculate_metrics (DataFrame.mk [0, 1, 2] [("A", [100, 100, 100])])
        default_risk_free_rate =
      [("A", MetricsRecord.mk (.fin 0) (.fin 0) .negInf)] ∧
    FloatVal.negInf ≠ FloatVal.nan ∧
    format3f FloatVal.negInf = "-inf" ∧
    ("-inf" : String) ≠ "N/A" := by
  have hret : daily_returns [(100 : ℝ), 100, 100] = List.replicate 2 (0 : ℝ) :=
    daily_returns_replicate 100 3
  have hann : annualReturnOf (daily_returns [(100 : ℝ), 100, 100]) = .fin 0 := by
    rw [hret, annualReturnOf, seriesMean_replicate_zero 2 (by norm_num)]
    norm_num [fadd, fpow, trading_days, fsub, fneg]
  have hvol : annualVolatilityOf (daily_returns [(100 : ℝ), 100, 100]) = .fin 0 := by
    rw [hret, annualVolatilityOf, sampleStd_replicate_zero 2 (by norm_num)]
    simp [fmul]
  have hsh : sharpeOf (daily_returns [(100 : ℝ), 100, 100]) default_risk_free_rate = .negInf := by
    rw [sharpeOf, hann, hvol]
    norm_num [fsub, fneg, fadd, fdiv, default_risk_free_rate]
  refine ⟨?_, by simp, rfl, by decide⟩
  simp only [calculate_metrics, List.map_cons, List.map_nil]
  rw [List.cons.injEq]
  refine ⟨?_, rfl⟩
  rw [Prod.mk.injEq]
  exact ⟨rfl, by rw [MetricsRecord.mk.injEq]; exact ⟨hann, hvol, hsh⟩⟩

lemma map_ratio_scanl (ps : List ℝ) : ∀ (p0 c : ℝ), p0 ≠ 0 → (∀ p ∈ ps, p ≠ 0) →
    (p0 :: ps).map (fun p => p / p0 * c) =
      List.scanl (fun acc r => acc * (1 + r)) c (daily_returns (p0 :: ps)) := by
  induction ps with
  | nil =>
      intro p0 c h0 _
      simp [daily_returns, div_self h0]
  | cons p1 tl ih =>
      intro p0 c h0 hall
      have h1 : p1 ≠ 0 := hall p1 (by simp)
      have hd : daily_returns (p0 :: p1 :: tl) =
          ((p1 - p0) / p0) :: daily_returns (p1 :: tl) := rfl
      have hstep : c * (1 + (p1 - p0) / p0) = c * (p1 / p0) := by
        field_simp
      calc (p0 :: p1 :: tl).map (fun p => p / p0 * c)
          = c :: (p1 :: tl).map (fun p => p / p0 * c) := by
            simp [div_self h0]
        _ = c :: (p1 :: tl).map (fun p => p / p1 * (c * (p1 / p0))) := by
            rw [List.cons.injEq]
            refine ⟨rfl, List.map_congr_left ?_⟩
            intro p hp
            field_simp
            ring
        _ = c :: List.scanl (fun acc r => acc * (1 + r)) (c * (p1 / p0))
              (daily_returns (p1 :: tl)) := by
            rw [ih p1 (c * (p1 / p0)) h1 (fun p hp => hall p (by simp [hp]))]
        _ = List.scanl (fun acc r => acc * (1 + r)) c (daily_returns (p0 :: p1 :: tl)) := by
            rw [hd, List.scanl_cons, hstep]
            simp

/-- C4: round-trip law — for a price series of positive prices, the
cumulative-growth series the renderer computes by normalizing prices to
base 100 equals, at every date, 100 times the running product of
`1 + daily_return` re-derived from the daily return series. -/
theorem cumulative_growth_round_trip (ps : List ℝ) (hpos : ∀ p ∈ ps, 0 < p) :
    cumulative_returns ps = specCumulativeGrowth ps := by
  cases ps with
  | nil => rfl
  | cons p0 tl =>
      have h0 : p0 ≠ 0 := ne_of_gt (hpos p0 (by simp))
      have hall : ∀ p ∈ tl, p ≠ 0 := fun p hp => ne_of_gt (hpos p (by simp [hp]))
      show (p0 :: tl).map (fun p => p / p0 * 100) = _
      rw [map_ratio_scanl tl p0 100 h0 hall]
      rfl

/-- C4 witness: the round-trip law at the concrete positive price series
`[100, 110, 99]`. -/
theorem cumulative_growth_round_trip_witness :
    (∀ p ∈ [(100 : ℝ), 110, 99], 0 < p) ∧
    cumulative_returns [(100 : ℝ), 110, 99] = specCumulativeGrowth [(100 : ℝ), 110, 99] :=
  ⟨by norm_num, cumulative_growth_round_trip [100, 110, 99] (by norm_num)⟩

lemma idxmaxAux_spec (l : List (String × FloatVal)) :
    ∀ best : String × FloatVal, best.2.isNan = false →
      (idxmaxAux best l = best ∧
        ∀ q ∈ l, q.2.isNan = false → toEReal q.2 ≤ toEReal best.2) ∨
      (∃ pre r post, l = pre ++ r :: post ∧ idxmaxAux best l = r ∧ r.2.isNan = false ∧
        toEReal best.2 < toEReal r.2 ∧
        (∀ q ∈ pre, q.2.isNan = true ∨ toEReal q.2 < toEReal r.2) ∧
        (∀ q ∈ post, q.2.isNan = false → toEReal q.2 ≤ toEReal r.2)) := by
  induction l with
  | nil =>
      intro best hb
      left
      exact ⟨rfl, by simp⟩
  | cons p rest ih =>
      intro best hb
      by_cases hnan : p.2.isNan = true
      · have hred : idxmaxAux best (p :: rest) = idxmaxAux best rest := by
          simp [idxmaxAux, hnan]
        rcases ih best hb with ⟨heq, hmax⟩ | ⟨pre, r, post, hsplit, heq, hr, hlt, hpre, hpost⟩
        · left
          refine ⟨hred.trans heq, ?_⟩
          intro q hq hqn
          rcases List.mem_cons.mp hq with rfl | hq2
          · rw [hqn] at hnan; exact absurd hnan (by simp)
          · exact hmax q hq2 hqn
        · right
          refine ⟨p :: pre, r, post, by rw [hsplit]; rfl, hred.trans heq, hr, hlt, ?_, hpost⟩
          intro q hq
          rcases List.mem_cons.mp hq with rfl | hq2
          · exact Or.inl hnan
          · exact hpre q hq2
      · have hb2 : p.2.isNan = false := by simpa using hnan
        by_cases hcmp : toEReal best.2 < toEReal p.2
        · have hred : idxmaxAux best (p :: rest) = idxmaxAux p rest := by
            simp [idxmaxAux, hb2, hcmp]
          rcases ih p hb2 with ⟨heq, hmax⟩ | ⟨pre, r, post, hsplit, heq, hr, hlt, hpre, hpost⟩
          · right
            exact ⟨[], p, rest, rfl, hred.trans heq, hb2, hcmp, by simp, hmax⟩
          · right
            refine ⟨p :: pre, r, post, by rw [hsplit]; rfl, hred.trans heq, hr,
              lt_trans hcmp hlt, ?_, hpost⟩
            intro q hq
            rcases List.mem_cons.mp hq with rfl | hq2
            · exact Or.inr hlt
            · exact hpre q hq2
        · have hred : idxmaxAux best (p :: rest) = idxmaxAux best rest := by
            simp [idxmaxAux, hb2, hcmp]
          have hple : toEReal p.2 ≤ toEReal best.2 := le_of_not_lt hcmp
          rcases ih best hb with ⟨heq, hmax⟩ | ⟨pre, r, post, hsplit, heq, hr, hlt, hpre, hpost⟩
          · left
            refine ⟨hred.trans heq, ?_⟩
            intro q hq hqn
            rcases List.mem_cons.mp hq with rfl | hq2
            · exact hple
            · exact hmax q hq2 hqn
          · right
            refine ⟨p :: pre, r, post, by rw [hsplit]; rfl, hred.trans heq, hr, hlt, ?_, hpost⟩
            intro q hq
            rcases List.mem_cons.mp hq with rfl | hq2
            · exact Or.inr (lt_of_le_of_lt hple hlt)
            · exact hpre q hq2

lemma idxmax_spec (l : List (String × FloatVal)) (h : ∃ p ∈ l, p.2.isNan = false) :
    ∃ pre r post, l = pre ++ r :: post ∧ idxmax l = some r.1 ∧ r.2.isNan = false ∧
      (∀ q ∈ l, q.2.isNan = false → toEReal q.2 ≤ toEReal r.2) ∧
      (∀ q ∈ pre, q.2.isNan = true ∨ toEReal q.2 < toEReal r.2) := by
  induction l with
  | nil => simp at h
  | cons p rest ih =>
      by_cases hnan : p.2.isNan = true
      · have hex : ∃ q ∈ rest, q.2.isNan = false := by
          rcases h with ⟨q, hq, hqn⟩
          rcases List.mem_cons.mp hq with rfl | hq2
          · rw [hqn] at hnan; exact absurd hnan (by simp)
          · exact ⟨q, hq2, hqn⟩
        obtain ⟨pre, r, post, hsplit, heq, hr, hmax, hpre⟩ := ih hex
        refine ⟨p :: pre, r, post, by rw [hsplit]; rfl, ?_, hr, ?_, ?_⟩
        · simpa [idxmax, hnan] using heq
        · intro q hq hqn
          rcases List.mem_cons.mp hq with rfl | hq2
          · rw [hqn] at hnan; exact absurd hnan (by simp)
          · exact hmax q hq2 hqn
        · intro q hq
          rcases List.mem_cons.mp hq with rfl | hq2
          · exact Or.inl hnan
          · exact hpre q hq2
      · have hb : p.2.isNan = false := by simpa using hnan
        have hred : idxmax (p :: rest) = some (idxmaxAux p rest).1 := by
          simp [idxmax, hb]
        rcases idxmaxAux_spec rest p hb with ⟨heq, hmax⟩ |
          ⟨pre, r, post, hsplit, heq, hr, hlt, hpre, hpost⟩
        · refine ⟨[], p, rest, rfl, by rw [hred, heq], hb, ?_, by simp⟩
          intro q hq hqn
          rcases List.mem_cons.mp hq with rfl | hq2
          · exact le_refl _
          · exact hmax q hq2 hqn
        · refine ⟨p :: pre, r, post, by rw [hsplit]; rfl, by rw [hred, heq], hr, ?_, ?_⟩
          · intro q hq hqn
            rcases List.mem_cons.mp hq with rfl | hq2
            · exact le_of_lt hlt
            · rcases List.mem_append.mp (by rw [← hsplit]; exact hq2) with hqpre | hqpost
              · rcases hpre q hqpre with hq1 | hq1
                · rw [hqn] at hq1; exact absurd hq1 (by simp)
                · exact le_of_lt hq1
              · rcases List.mem_cons.mp hqpost with rfl | hq3
                · exact le_refl _
                · exact hpost q hq3 hqn
          · intro q hq
            rcases List.mem_cons.mp hq with rfl | hq2
            · exact Or.inr hlt
            · exact hpre q hq2

/-- C2: for a metrics table with at least one defined (non-NaN) Sharpe
ratio, the best ticker reported by `display_results` is the first ticker,
in input column order, whose Sharpe ratio attains the maximum over the
tickers with defined Sharpe: NaN entries are skipped, every defined entry
is no greater, and every earlier entry is NaN or strictly smaller. -/
theorem display_best_is_first_max_defined_sharpe
    (metrics : List (String × MetricsRecord))
    (h : ∃ p ∈ sharpeColumn metrics, p.2.isNan = false) :
    ∃ pre r post, sharpeColumn metrics = pre ++ r :: post ∧
      display_results_best metrics = some r.1 ∧ r.2.isNan = false ∧
      (∀ q ∈ sharpeColumn metrics, q.2.isNan = false → toEReal q.2 ≤ toEReal r.2) ∧
      (∀ q ∈ pre, q.2.isNan = true ∨ toEReal q.2 < toEReal r.2) :=
  idxmax_spec (sharpeColumn metrics) h

/-- C2 witness: on the metrics `A: 1.2, B: 0.9, C: NaN` the hypothesis
holds and the reported best ticker is characterized by the theorem. -/
theorem display_best_is_first_max_defined_sharpe_witness :
    (∃ p ∈ sharpeColumn
        [("A", MetricsRecord.mk (.fin 0) (.fin 0) (.fin (6 / 5))),
         ("B", MetricsRecord.mk (.fin 0) (.fin 0) (.fin (9 / 10))),
         ("C", MetricsRecord.mk (.fin 0) (.fin 0) .nan)], p.2.isNan = false) ∧
    (∃ pre r post, sharpeColumn
        [("A", MetricsRecord.mk (.fin 0) (.fin 0) (.fin (6 / 5))),
         ("B", MetricsRecord.mk (.fin 0) (.fin 0) (.fin (9 / 10))),
         ("C", MetricsRecord.mk (.fin 0) (.fin 0) .nan)] = pre ++ r :: post ∧
      display_results_best
        [("A", MetricsRecord.mk (.fin 0) (.fin 0) (.fin (6 / 5))),
         ("B", MetricsRecord.mk (.fin 0) (.fin 0) (.fin (9 / 10))),
         ("C", MetricsRecord.mk (.fin 0) (.fin 0) .nan)] = some r.1 ∧
      r.2.isNan = false ∧
      (∀ q ∈ sharpeColumn
          [("A", MetricsRecord.mk (.fin 0) (.fin 0) (.fin (6 / 5))),
           ("B", MetricsRecord.mk (.fin 0) (.fin 0) (.fin (9 / 10))),
           ("C", MetricsRecord.mk (.fin 0) (.fin 0) .nan)],
        q.2.isNan = false → toEReal q.2 ≤ toEReal r.2) ∧
      (∀ q ∈ pre, q.2.isNan = true ∨ toEReal q.2 < toEReal r.2)) :=
  ⟨⟨("A", .fin (6 / 5)), by simp [sharpeColumn], rfl⟩,
    display_best_is_first_max_defined_sharpe _
      ⟨("A", .fin (6 / 5)), by simp [sharpeColumn], rfl⟩⟩
